import Mathlib

/-!
Verification development for the redeo server core (src/server.go).

The embedding mirrors the Go source shallowly:

* the command table `cmds map[string]interface{}` becomes a function
  `String → Option HandlerVariant` (Go map lookup / assignment);
* `strings.ToLower` is modelled character-wise for the ASCII range;
* the per-connection pipeline loop `serveClient`, the dispatch step
  `perform`, the accept loop `Serve` and the drain `Release` become
  functions from an explicit environment (the outcomes of the external
  calls: reads, flushes, accepted connections) to the ordered list of
  observable events they produce, plus their results and updated state;
* repository code that is not part of src/server.go (the `Config`
  structure, the `ServerInfo` client registry, `UnknownCommand`) is
  modelled from the specification, as marked in each doc comment.
-/

namespace Redeo

/-- ASCII lower-casing of one character, as strings.ToLower acts on the
ASCII subset used for command names. -/
def lowerChar (c : Char) : Char :=
  if 65 ≤ c.toNat ∧ c.toNat ≤ 90 then Char.ofNat (c.toNat + 32) else c

/-- Lower-case every character of a list. -/
def lowerChars : List Char → List Char
  | [] => []
  | c :: cs => lowerChar c :: lowerChars cs

/-- Model of strings.ToLower restricted to ASCII command names. -/
def toLower (s : String) : String :=
  String.mk (lowerChars s.data)

/-- Handler variants stored in the command table: the Go code stores
either a `Handler` (unary) or a `StreamHandler` in
`cmds map[string]interface{}` and distinguishes them by a type switch.
Handlers themselves are external code, identified here by a tag. -/
inductive HandlerVariant
  | unary (h : Nat)
  | stream (h : Nat)
deriving DecidableEq

/-- The command table: Go map from name to handler. -/
abbrev Cmds := String → Option HandlerVariant

/-- Handle (server.go lines 39-43): store the unary handler under the
lower-cased name, overwriting any previous entry. -/
def handle (cmds : Cmds) (name : String) (h : Nat) : Cmds :=
  fun k => if k = toLower name then some (HandlerVariant.unary h) else cmds k

/-- HandleStream (server.go lines 51-55): store the streaming handler
under the lower-cased name, overwriting any previous entry. -/
def handleStream (cmds : Cmds) (name : String) (h : Nat) : Cmds :=
  fun k => if k = toLower name then some (HandlerVariant.stream h) else cmds k

/-- The lookup done by perform (server.go lines 148-153): normalize the
incoming name with strings.ToLower, then read the command table. -/
def lookupCmd (cmds : Cmds) (name : String) : Option HandlerVariant :=
  cmds (toLower name)

/-- Modelled from the spec: process-level configuration consumed by the
core (TCP keep-alive enable + period, per-command deadline duration);
its Go source file is not in src/. Durations are naturals; the Go zero
value of a duration is 0, and 0 means disabled. -/
structure Config where
  timeout : Nat
  tcpKeepAlive : Nat
deriving DecidableEq

/-- Modelled from the spec: a client metadata record of the Client
Registry (id, last-seen command name, per-command invocation counters);
its Go source file is not in src/. Address and start time are omitted:
no claim mentions them. -/
structure ClientRecord where
  id : Nat
  lastCommand : String
  counts : String → Nat

/-- The Client Registry state: the current metadata records. -/
abbrev Registry := List ClientRecord

/-- Modelled from the spec: Register adds a metadata record keyed by the
id of the session. -/
def registerClient (reg : Registry) (id : Nat) : Registry :=
  { id := id, lastCommand := "", counts := fun _ => 0 } :: reg

/-- Modelled from the spec: Deregister removes the record for the id if
present; deregistering an unknown id is a no-op. -/
def deregisterClient (reg : Registry) (id : Nat) : Registry :=
  reg.filter (fun r => r.id ≠ id)

/-- Modelled from the spec: RecordCommand updates last-seen command and
increments the counter of that command for the id; no-op for unknown ids. -/
def recordCommand (reg : Registry) (id : Nat) (name : String) : Registry :=
  reg.map (fun r =>
    if r.id = id then
      { r with
        lastCommand := name,
        counts := fun k => if k = name then r.counts k + 1 else r.counts k }
    else r)

/-- Lookup of a client record by id. -/
def findClient (reg : Registry) (id : Nat) : Option ClientRecord :=
  reg.find? (fun r => r.id = id)

/-- An error surfaced by the codec or the connection, carrying the
protocol-error classification used by resp.IsProtocolError and its
message used by err.Error(). -/
structure Err where
  protocol : Bool
  msg : String
deriving DecidableEq

/-- Model of resp.IsProtocolError: the classification tag carried by the
error. -/
def isProtocolError (e : Err) : Bool := e.protocol

/-- Modelled from the spec: UnknownCommand builds the error reply text
naming the unknown command; its Go source file is not in src/. -/
def unknownCommand (name : String) : String :=
  "ERR unknown command " ++ name

/-- Outcomes of the external calls made by one run of perform: the
result of readCmd / streamCmd, the buffered byte count observed
after the handler invocation, and the result of the conditional flush. -/
structure PerformEnv where
  readCmdErr : Option Err
  streamCmdErr : Option Err
  bufferedAfter : Nat
  flushErr : Option Err
deriving DecidableEq

/-- Observable events emitted by the dispatch step, in order. -/
inductive Ev
  | appendError (s : String)
  | skipCmd
  | readCmd
  | invokeUnary (h : Nat)
  | streamCmd
  | invokeStream (h : Nat)
  | discard
  | flush
deriving DecidableEq

/-- The dispatch step perform (server.go lines 147-185): normalize the
name; on a missing handler append the unknown-command error, skip the
remaining arguments of the command and return nil; otherwise record the call
in the Client Registry, then read (unary) or stream the arguments,
invoke the handler, and flush when the buffered byte count exceeds half
of resp.MaxBufferSize. The deferred scmd.Discard runs on function exit,
after the conditional flush. Returns the updated registry, the event
list and the returned error. -/
def perform (cmds : Cmds) (maxBufferSize : Nat) (env : PerformEnv)
    (reg : Registry) (id : Nat) (name : String) :
    Registry × List Ev × Option Err :=
  let norm := toLower name
  match cmds norm with
  | none =>
    (reg, [Ev.appendError (unknownCommand name), Ev.skipCmd], none)
  | some h =>
    let reg1 := recordCommand reg id norm
    match h with
    | HandlerVariant.unary hid =>
      match env.readCmdErr with
      | some e => (reg1, [Ev.readCmd], some e)
      | none =>
        if env.bufferedAfter > maxBufferSize / 2 then
          (reg1, [Ev.readCmd, Ev.invokeUnary hid, Ev.flush], env.flushErr)
        else
          (reg1, [Ev.readCmd, Ev.invokeUnary hid], none)
    | HandlerVariant.stream hid =>
      match env.streamCmdErr with
      | some e => (reg1, [Ev.streamCmd], some e)
      | none =>
        if env.bufferedAfter > maxBufferSize / 2 then
          (reg1,
           [Ev.streamCmd, Ev.invokeStream hid, Ev.flush, Ev.discard],
           env.flushErr)
        else
          (reg1, [Ev.streamCmd, Ev.invokeStream hid, Ev.discard], none)

/-- Outcomes of the external calls of one iteration of the pipeline
loop: whether c.closed was observed set at the loop head, the error
returned by c.pipeline(perform), and whether the end-of-iteration
c.wr.Flush() succeeded. -/
structure IterEnv where
  closed : Bool
  pipeErr : Option Err
  flushOk : Bool
deriving DecidableEq

/-- Observable events of the session lifecycle, in order. -/
inductive SEv
  | register (id : Nat)
  | deregister (id : Nat)
  | setDeadline
  | appendError (s : String)
  | flush
  | release
deriving DecidableEq

/-- The request/response loop body of serveClient (server.go lines
124-144): while the closed flag is unset, arm the deadline when a
timeout is configured, run the pipeline; on an error append the generic
"ERR " reply, and when the error is not a protocol error flush
best-effort and return; otherwise flush and return when the flush
fails, else iterate. -/
def loopRun (timeout : Nat) : List IterEnv → List SEv
  | [] => []
  | e :: rest =>
    if e.closed then []
    else
      let dl : List SEv := if timeout > 0 then [SEv.setDeadline] else []
      match e.pipeErr with
      | some err =>
        if isProtocolError err then
          dl ++ [SEv.appendError ("ERR " ++ err.msg), SEv.flush] ++
            (if e.flushOk then loopRun timeout rest else [])
        else
          dl ++ [SEv.appendError ("ERR " ++ err.msg), SEv.flush]
      | none =>
        dl ++ [SEv.flush] ++ (if e.flushOk then loopRun timeout rest else [])

/-- serveClient (server.go lines 110-145): register the client, run the
loop, and on any exit run the deferred calls in LIFO order: deregister
from the Client Registry, then release the resources of the client. -/
def serveClient (timeout : Nat) (id : Nat) (script : List IterEnv) :
    List SEv :=
  SEv.register id :: (loopRun timeout script ++ [SEv.deregister id, SEv.release])

/-- One result of lis.Accept() seen by the accept loop: either a
connection (with whether it is a *net.TCPConn) or an accept error. -/
inductive AcceptResult
  | conn (isTCP : Bool)
  | acceptErr (e : String)
deriving DecidableEq

/-- Observable events of the accept loop. -/
inductive AEv
  | keepAlive
  | spawn
deriving DecidableEq

/-- Serve (server.go lines 64-80): loop accepting connections; on an
accept error return it; otherwise apply keep-alive settings when
configured and supported, spawn one independent goroutine for the
connection, and continue accepting. An empty remaining script means the
loop is still blocked in Accept, so no result is produced. -/
def serve (cfg : Config) : List AcceptResult → List AEv × Option String
  | [] => ([], none)
  | AcceptResult.acceptErr e :: _ => ([], some e)
  | AcceptResult.conn isTCP :: rest =>
    let evs := (if 0 < cfg.tcpKeepAlive ∧ isTCP = true then [AEv.keepAlive] else [])
      ++ [AEv.spawn]
    let r := serve cfg rest
    (evs ++ r.1, r.2)

/-- A registered client as seen by the drain: its id and whether its
back-reference to the live session is still set (nil-ed out once the
drain closes it). -/
structure DrainClient where
  id : Nat
  alive : Bool
deriving DecidableEq

/-- Server state relevant to Release: the Client Registry contents and
the optional counting barrier (srv.released WaitGroup counter). -/
structure DrainState where
  clients : List DrainClient
  released : Option Nat
deriving DecidableEq

/-- The install-and-close phase of Release (server.go lines 86-93):
take the All() snapshot, install a fresh WaitGroup, and for each
snapshotted client add one to the barrier, close its connection and nil
the back-reference. Returns the new state and the list of closed ids. -/
def releaseInstall (s : DrainState) : DrainState × List Nat :=
  ({ clients := s.clients.map (fun c => { c with alive := false }),
     released := some s.clients.length },
   s.clients.map (fun c => c.id))

/-- deregister (server.go lines 102-107): remove the client from the
registry and, when a drain barrier is installed, signal it
(WaitGroup.Done decrements the counter). -/
def drainDeregister (s : DrainState) (id : Nat) : DrainState :=
  { clients := s.clients.filter (fun c => c.id ≠ id),
    released :=
      match s.released with
      | some n => some (n - 1)
      | none => none }

/-- The condition under which srv.released.Wait() (server.go line 94)
unblocks: the barrier counter has reached zero. -/
def releaseWaitDone (s : DrainState) : Bool :=
  s.released = some 0

/-- The clear phase of Release (server.go line 95): drop the barrier. -/
def releaseClear (s : DrainState) : DrainState :=
  { s with released := none }

/-- The model of the whole server value built by NewServer: the
configuration, the command table and the Client Registry. -/
structure ServerModel where
  config : Config
  cmds : Cmds
  registry : Registry

/-- The Go zero value of Config, as produced by new(Config). -/
def emptyConfig : Config :=
  { timeout := 0, tcpKeepAlive := 0 }

/-- NewServer (server.go lines 23-33): substitute a fresh zero-value
configuration for nil, then build the server with an empty command
table and a fresh info registry. -/
def newServer (cfg : Option Config) : ServerModel :=
  { config := cfg.getD emptyConfig,
    cmds := fun _ => none,
    registry := [] }

/-- Helper: RecordCommand updates exactly the looked-up record: finding
the id after recording a command yields the old record with the
last-seen command and the counter of that command updated. -/
theorem findClient_recordCommand (reg : Registry) (id : Nat) (name : String) :
    findClient (recordCommand reg id name) id =
      (findClient reg id).map (fun r =>
        { r with
          lastCommand := name,
          counts := fun k => if k = name then r.counts k + 1 else r.counts k }) := by
  induction reg with
  | nil => rfl
  | cons r rs ih =>
    by_cases h : r.id = id
    · simp [findClient, recordCommand, List.find?, h]
    · simp only [findClient, recordCommand, List.map_cons, List.find?] at ih ⊢
      simp [h, ih]

/-- C6: registering a handler under a name and looking it up under any
casing with the same lower-casing resolves to that handler, both for
Handle (unary) and HandleStream (streaming): both store under the
lower-cased name and perform looks up the lower-cased name. -/
theorem handle_lookup_case_insensitive (cmds : Cmds) (name m : String) (h : Nat)
    (hcase : toLower m = toLower name) :
    lookupCmd (handle cmds name h) m = some (HandlerVariant.unary h) ∧
    lookupCmd (handleStream cmds name h) m = some (HandlerVariant.stream h) := by
  constructor <;> simp [lookupCmd, handle, handleStream, hcase]

/-- Witness for C6 at the concrete names GET / get / Get. -/
theorem handle_lookup_case_insensitive_witness :
    lookupCmd (handle (fun _ => none) "GET" 7) "get" = some (HandlerVariant.unary 7) ∧
    lookupCmd (handleStream (fun _ => none) "GET" 7) "Get" = some (HandlerVariant.stream 7) :=
  ⟨(handle_lookup_case_insensitive (fun _ => none) "GET" "get" 7 (by decide)).1,
   (handle_lookup_case_insensitive (fun _ => none) "GET" "Get" 7 (by decide)).2⟩

/-- C9: NewServer with a nil configuration builds exactly the server
built from a fresh zero-value configuration, so every later operation
(the accept loop, the pipeline loop timeout check, the command table)
behaves as with an explicitly empty configuration. -/
theorem newServer_nil_config :
    newServer none = newServer (some emptyConfig) ∧
    (newServer none).config.timeout = 0 ∧
    (newServer none).config.tcpKeepAlive = 0 ∧
    (∀ script, serve (newServer none).config script
      = serve (newServer (some emptyConfig)).config script) ∧
    (∀ id script, serveClient (newServer none).config.timeout id script
      = serveClient (newServer (some emptyConfig)).config.timeout id script) ∧
    (∀ name, (newServer none).cmds name = none) :=
  ⟨rfl, rfl, rfl, fun _ => rfl, fun _ _ => rfl, fun _ => rfl⟩

/-- C4: when no handler is registered under the lower-cased name, perform
appends exactly one error reply that names the unknown command, skips
the remaining arguments of the command, leaves the registry unchanged
and returns no error, so the pipeline loop continues. -/
theorem perform_unknown_command (cmds : Cmds) (maxBufferSize : Nat)
    (env : PerformEnv) (reg : Registry) (id : Nat) (name : String)
    (habs : cmds (toLower name) = none) :
    perform cmds maxBufferSize env reg id name =
      (reg, [Ev.appendError (unknownCommand name), Ev.skipCmd], none) ∧
    (∃ p, unknownCommand name = p ++ name) := by
  refine ⟨?_, ⟨"ERR unknown command ", rfl⟩⟩
  simp [perform, habs]

/-- Witness for C4 on an empty command table and the name FOO. -/
theorem perform_unknown_command_witness :
    perform (fun _ => none) 1024 ⟨none, none, 0, none⟩ [] 1 "FOO" =
      ([], [Ev.appendError (unknownCommand "FOO"), Ev.skipCmd], none) ∧
    (∃ p, unknownCommand "FOO" = p ++ "FOO") :=
  perform_unknown_command (fun _ => none) 1024 ⟨none, none, 0, none⟩ [] 1 "FOO" rfl

/-- C5: for every streaming handler invocation (handler found and the
stream command materialized without error), the event trace of perform
contains exactly one discard, it is the last event (so it happens after
the handler returns, whatever the handler consumed), and the handler
invocation occurs in the trace. -/
theorem perform_stream_discard (cmds : Cmds) (maxBufferSize : Nat)
    (env : PerformEnv) (reg : Registry) (id : Nat) (name : String) (hid : Nat)
    (hs : cmds (toLower name) = some (HandlerVariant.stream hid))
    (hok : env.streamCmdErr = none) :
    ((perform cmds maxBufferSize env reg id name).2.1.count Ev.discard = 1) ∧
    ((perform cmds maxBufferSize env reg id name).2.1.getLast? = some Ev.discard) ∧
    (Ev.invokeStream hid ∈ (perform cmds maxBufferSize env reg id name).2.1) := by
  by_cases hb : env.bufferedAfter > maxBufferSize / 2 <;>
    simp [perform, hs, hok, hb, List.count_cons, List.getLast?]

/-- Witness for C5: a streaming handler that consumed nothing (buffered
count 0), on a one-command table. -/
theorem perform_stream_discard_witness :
    ((perform (handleStream (fun _ => none) "lolwut" 3) 1024
        ⟨none, none, 0, none⟩ [] 1 "LOLWUT").2.1.count Ev.discard = 1) ∧
    ((perform (handleStream (fun _ => none) "lolwut" 3) 1024
        ⟨none, none, 0, none⟩ [] 1 "LOLWUT").2.1.getLast? = some Ev.discard) ∧
    (Ev.invokeStream 3 ∈ (perform (handleStream (fun _ => none) "lolwut" 3) 1024
        ⟨none, none, 0, none⟩ [] 1 "LOLWUT").2.1) :=
  perform_stream_discard (handleStream (fun _ => none) "lolwut" 3) 1024
    ⟨none, none, 0, none⟩ [] 1 "LOLWUT" 3 (by decide) rfl

/-- C7: after a successful handler invocation (unary or streaming) the
dispatch step flushes exactly when the buffered byte count exceeds half
of the maximum buffer size; on the unknown-command path and on argument
read failures no flush happens inside the dispatch step. -/
theorem perform_flush_threshold (cmds : Cmds) (maxBufferSize : Nat)
    (env : PerformEnv) (reg : Registry) (id : Nat) (name : String) :
    (∀ hid, cmds (toLower name) = some (HandlerVariant.unary hid) →
      env.readCmdErr = none →
      (Ev.flush ∈ (perform cmds maxBufferSize env reg id name).2.1 ↔
        env.bufferedAfter > maxBufferSize / 2)) ∧
    (∀ hid, cmds (toLower name) = some (HandlerVariant.stream hid) →
      env.streamCmdErr = none →
      (Ev.flush ∈ (perform cmds maxBufferSize env reg id name).2.1 ↔
        env.bufferedAfter > maxBufferSize / 2)) ∧
    (cmds (toLower name) = none →
      Ev.flush ∉ (perform cmds maxBufferSize env reg id name).2.1) ∧
    (∀ hid e, cmds (toLower name) = some (HandlerVariant.unary hid) →
      env.readCmdErr = some e →
      Ev.flush ∉ (perform cmds maxBufferSize env reg id name).2.1) ∧
    (∀ hid e, cmds (toLower name) = some (HandlerVariant.stream hid) →
      env.streamCmdErr = some e →
      Ev.flush ∉ (perform cmds maxBufferSize env reg id name).2.1) := by
  refine ⟨fun hid hs hok => ?_, fun hid hs hok => ?_, fun habs => ?_,
    fun hid e hs he => ?_, fun hid e hs he => ?_⟩
  · simp only [perform, hs, hok]
    split <;> simp_all
  · simp only [perform, hs, hok]
    split <;> simp_all
  · simp [perform, habs]
  · simp [perform, hs, he]
  · simp [perform, hs, he]

/-- Witness for C7: with a 10-byte maximum and 6 buffered bytes the
threshold is exceeded and a flush event is emitted. -/
theorem perform_flush_threshold_witness :
    Ev.flush ∈ (perform (handle (fun _ => none) "get" 3) 10
      ⟨none, none, 6, none⟩ [] 1 "GET").2.1 :=
  ((perform_flush_threshold (handle (fun _ => none) "get" 3) 10
      ⟨none, none, 6, none⟩ [] 1 "GET").1 3 (by decide) rfl).mpr (by decide)

/-- C10: perform records the command in the Client Registry before
reading the arguments, so when readCmd or streamCmd fails the returned
registry still carries the recorded command: the last-seen name is the
normalized command and its counter is incremented, with the error
propagated. -/
theorem perform_records_before_read (cmds : Cmds) (maxBufferSize : Nat)
    (env : PerformEnv) (reg : Registry) (id : Nat) (name : String) :
    (∀ hid e, cmds (toLower name) = some (HandlerVariant.unary hid) →
      env.readCmdErr = some e →
      (perform cmds maxBufferSize env reg id name).1
          = recordCommand reg id (toLower name) ∧
      (perform cmds maxBufferSize env reg id name).2.2 = some e) ∧
    (∀ hid e, cmds (toLower name) = some (HandlerVariant.stream hid) →
      env.streamCmdErr = some e →
      (perform cmds maxBufferSize env reg id name).1
          = recordCommand reg id (toLower name) ∧
      (perform cmds maxBufferSize env reg id name).2.2 = some e) ∧
    (∀ r, findClient reg id = some r →
      ∃ r', findClient (recordCommand reg id (toLower name)) id = some r' ∧
        r'.lastCommand = toLower name ∧
        r'.counts (toLower name) = r.counts (toLower name) + 1) := by
  refine ⟨fun hid e hs he => ?_, fun hid e hs he => ?_, fun r hr => ?_⟩
  · constructor <;> simp [perform, hs, he]
  · constructor <;> simp [perform, hs, he]
  · refine ⟨_, by rw [findClient_recordCommand, hr]; rfl, rfl, by simp⟩

/-- Witness for C10: a failing readCmd on a registered client still
increments the counter of the failed command. -/
theorem perform_records_before_read_witness :
    (perform (handle (fun _ => none) "x" 1) 1024
        ⟨some ⟨false, "eof"⟩, none, 0, none⟩ (registerClient [] 5) 5 "X").1
      = recordCommand (registerClient [] 5) 5 (toLower "X") ∧
    (perform (handle (fun _ => none) "x" 1) 1024
        ⟨some ⟨false, "eof"⟩, none, 0, none⟩ (registerClient [] 5) 5 "X").2.2
      = some ⟨false, "eof"⟩ :=
  (perform_records_before_read (handle (fun _ => none) "x" 1) 1024
      ⟨some ⟨false, "eof"⟩, none, 0, none⟩ (registerClient [] 5) 5 "X").1
    1 ⟨false, "eof"⟩ (by decide) rfl

/-- C1 counterexample: the claim predicts that a protocol error
terminates the loop immediately (trace would be just the error reply
and the flush) and that a non-protocol error lets the loop continue
(trace would include the next iteration). On concrete two-iteration
scripts the code does the opposite: after a protocol error the loop
runs the next iteration (a second flush appears), and after a
non-protocol error it terminates (no second iteration appears). -/
theorem loopRun_error_branch_counterexample :
    isProtocolError { protocol := true, msg := "bad" } = true ∧
    loopRun 0
        [{ closed := false, pipeErr := some { protocol := true, msg := "bad" }, flushOk := true },
         { closed := false, pipeErr := none, flushOk := true }] =
      [SEv.appendError "ERR bad", SEv.flush, SEv.flush] ∧
    loopRun 0
        [{ closed := false, pipeErr := some { protocol := true, msg := "bad" }, flushOk := true },
         { closed := false, pipeErr := none, flushOk := true }] ≠
      [SEv.appendError "ERR bad", SEv.flush] ∧
    isProtocolError { protocol := false, msg := "io" } = false ∧
    loopRun 0
        [{ closed := false, pipeErr := some { protocol := false, msg := "io" }, flushOk := true },
         { closed := false, pipeErr := none, flushOk := true }] =
      [SEv.appendError "ERR io", SEv.flush] ∧
    loopRun 0
        [{ closed := false, pipeErr := some { protocol := false, msg := "io" }, flushOk := true },
         { closed := false, pipeErr := none, flushOk := true }] ≠
      [SEv.appendError "ERR io", SEv.flush, SEv.flush] := by
  refine ⟨rfl, rfl, ?_, rfl, rfl, ?_⟩ <;> decide

/-- C1 (amended): when the pipeline reports an error the session appends
the generic ERR-prefixed reply; if the error is NOT a protocol error the
session flushes best-effort and terminates immediately with no further
iterations, while for a protocol error the loop proceeds to the normal
end-of-iteration flush and continues to the next iteration when that
flush succeeds (terminating when it fails). -/
theorem loopRun_error_classification (timeout : Nat) (e : IterEnv)
    (rest : List IterEnv) (err : Err)
    (hc : e.closed = false) (he : e.pipeErr = some err) :
    (isProtocolError err = false →
      loopRun timeout (e :: rest) =
        (if timeout > 0 then [SEv.setDeadline] else []) ++
          [SEv.appendError ("ERR " ++ err.msg), SEv.flush]) ∧
    (isProtocolError err = true →
      loopRun timeout (e :: rest) =
        (if timeout > 0 then [SEv.setDeadline] else []) ++
          [SEv.appendError ("ERR " ++ err.msg), SEv.flush] ++
          (if e.flushOk then loopRun timeout rest else [])) := by
  constructor <;> intro hp <;> simp [loopRun, hc, he, hp]

/-- Witness for the amended C1 at a concrete one-error script. -/
theorem loopRun_error_classification_witness :
    loopRun 0
        [{ closed := false, pipeErr := some { protocol := false, msg := "eof" }, flushOk := true }] =
      [SEv.appendError "ERR eof", SEv.flush] := by
  have h := (loopRun_error_classification 0
      { closed := false, pipeErr := some { protocol := false, msg := "eof" }, flushOk := true }
      [] { protocol := false, msg := "eof" } rfl rfl).1 rfl
  simpa using h

/-- Helper: the loop body emits neither register nor deregister events;
those happen only in the serveClient wrapper. -/
theorem loopRun_no_lifecycle_events (timeout : Nat) (id : Nat) :
    ∀ script : List IterEnv,
      SEv.register id ∉ loopRun timeout script ∧
      SEv.deregister id ∉ loopRun timeout script := by
  intro script
  induction script with
  | nil => simp [loopRun]
  | cons e rest ih =>
    by_cases hc : e.closed
    · simp [loopRun, hc]
    · cases hpe : e.pipeErr with
      | none =>
        by_cases ht : timeout > 0 <;> by_cases hf : e.flushOk <;>
          simp [loopRun, hc, hpe, ht, hf, ih.1, ih.2]
      | some err =>
        by_cases hp : isProtocolError err <;>
          by_cases ht : timeout > 0 <;> by_cases hf : e.flushOk <;>
            simp [loopRun, hc, hpe, hp, ht, hf, ih.1, ih.2]

/-- C3: whatever path the pipeline loop takes to exit, the serveClient
trace registers the session exactly once and deregisters it exactly
once; and in the Client Registry model a record for the id exists right
after registration and no longer exists after deregistration. -/
theorem serveClient_lifecycle_once (timeout : Nat) (id : Nat)
    (script : List IterEnv) (reg : Registry) :
    (serveClient timeout id script).count (SEv.register id) = 1 ∧
    (serveClient timeout id script).count (SEv.deregister id) = 1 ∧
    (findClient (registerClient reg id) id).isSome = true ∧
    findClient (deregisterClient reg id) id = none := by
  have hno := loopRun_no_lifecycle_events timeout id script
  refine ⟨?_, ?_, ?_, ?_⟩
  · simp [serveClient, List.count_append, List.count_cons,
      List.count_eq_zero.mpr hno.1]
  · simp [serveClient, List.count_append, List.count_cons,
      List.count_eq_zero.mpr hno.2]
  · simp [findClient, registerClient, List.find?]
  · rw [findClient, List.find?_eq_none]
    intro r hr
    simp only [deregisterClient, List.mem_filter, decide_not] at hr
    simpa using hr.2

/-- Helper: folding deregistrations over a list of ids decrements the
drain barrier once per deregistration. -/
theorem foldl_drainDeregister_released (ids : List Nat) :
    ∀ s : DrainState, ∀ n : Nat, s.released = some n →
      (ids.foldl drainDeregister s).released = some (n - ids.length) := by
  induction ids with
  | nil =>
    intro s n hs
    simpa using hs
  | cons i is ih =>
    intro s n hs
    have h1 : (drainDeregister s i).released = some (n - 1) := by
      simp [drainDeregister, hs]
    have h2 := ih (drainDeregister s i) (n - 1) h1
    simp only [List.foldl_cons, List.length_cons]
    rw [h2, Nat.sub_sub, Nat.add_comm]

/-- C2: Release installs a barrier sized to the snapshot of registered
clients taken at the call, closes exactly the snapshotted clients
(nulling their session back-references), its Wait unblocks after every
snapshotted client has deregistered and signaled the barrier, it
unblocks immediately when zero clients are registered, ids outside the
snapshot are never closed, and the final phase clears the barrier. -/
theorem release_drain (s : DrainState) :
    ((releaseInstall s).1.released = some s.clients.length) ∧
    ((releaseInstall s).2 = s.clients.map (fun c => c.id)) ∧
    (∀ c, c ∈ (releaseInstall s).1.clients → c.alive = false) ∧
    (releaseWaitDone
        (((releaseInstall s).2).foldl drainDeregister (releaseInstall s).1) = true) ∧
    (s.clients = [] → releaseWaitDone (releaseInstall s).1 = true) ∧
    (∀ id, id ∉ s.clients.map (fun c => c.id) → id ∉ (releaseInstall s).2) ∧
    ((releaseClear (releaseInstall s).1).released = none) := by
  refine ⟨rfl, rfl, ?_, ?_, ?_, ?_, rfl⟩
  · intro c hc
    simp only [releaseInstall, List.mem_map] at hc
    obtain ⟨c0, -, rfl⟩ := hc
    rfl
  · have h := foldl_drainDeregister_released
      ((releaseInstall s).2) (releaseInstall s).1 s.clients.length rfl
    have hlen : ((releaseInstall s).2).length = s.clients.length := by
      simp [releaseInstall]
    rw [hlen] at h
    simp [releaseWaitDone, h]
  · intro h0
    simp [releaseWaitDone, releaseInstall, h0]
  · intro id h
    simpa [releaseInstall] using h

/-- Witness for C2: a two-client snapshot sizes the barrier to 2, the
two deregistrations bring it to 0, and the empty snapshot unblocks at
once. -/
theorem release_drain_witness :
    (releaseWaitDone
        ((releaseInstall { clients := [⟨4, true⟩, ⟨9, true⟩], released := none }).2.foldl
          drainDeregister
          (releaseInstall { clients := [⟨4, true⟩, ⟨9, true⟩], released := none }).1) = true) ∧
    (releaseWaitDone (releaseInstall { clients := [], released := none }).1 = true) ∧
    ((releaseInstall { clients := [⟨4, true⟩, ⟨9, true⟩], released := none }).1.released
      = some 2) :=
  ⟨(release_drain { clients := [⟨4, true⟩, ⟨9, true⟩], released := none }).2.2.2.1,
   (release_drain { clients := [], released := none }).2.2.2.2.1 rfl,
   (release_drain { clients := [⟨4, true⟩, ⟨9, true⟩], released := none }).1⟩

/-- Helper: an all-connection run of the accept loop never produces a
result and spawns one worker per connection, whatever follows it. -/
theorem serve_conn_run (cfg : Config) :
    ∀ cs : List AcceptResult, (∀ a ∈ cs, ∃ b, a = AcceptResult.conn b) →
      ∀ tail : List AcceptResult,
        (serve cfg (cs ++ tail)).2 = (serve cfg tail).2 ∧
        (serve cfg (cs ++ tail)).1.count AEv.spawn
          = cs.length + (serve cfg tail).1.count AEv.spawn := by
  intro cs
  induction cs with
  | nil =>
    intro _ tail
    simp
  | cons a cs ih =>
    intro h tail
    obtain ⟨b, rfl⟩ := h a (List.mem_cons_self a cs)
    have h' : ∀ x ∈ cs, ∃ b, x = AcceptResult.conn b :=
      fun x hx => h x (List.mem_cons_of_mem _ hx)
    have hih := ih h' tail
    by_cases hk : 0 < cfg.tcpKeepAlive ∧ b = true <;>
      simp [serve, hk, hih.1, hih.2, List.count_cons] <;> omega

/-- C8: when the accept script is any run of successful connections
followed by an accept failure, Serve surfaces exactly that accept error
and has spawned one independent worker per accepted connection; and on
any script of successful connections alone Serve does not return at
all, so no per-connection outcome ever causes a return. -/
theorem serve_returns_only_on_accept_error (cfg : Config)
    (cs : List AcceptResult) (e : String) (rest : List AcceptResult)
    (hcs : ∀ a ∈ cs, ∃ b, a = AcceptResult.conn b) :
    ((serve cfg (cs ++ AcceptResult.acceptErr e :: rest)).2 = some e) ∧
    ((serve cfg (cs ++ AcceptResult.acceptErr e :: rest)).1.count AEv.spawn
      = cs.length) ∧
    (∀ script : List AcceptResult, (∀ a ∈ script, ∃ b, a = AcceptResult.conn b) →
      (serve cfg script).2 = none ∧
      (serve cfg script).1.count AEv.spawn = script.length) := by
  have h1 := serve_conn_run cfg cs hcs (AcceptResult.acceptErr e :: rest)
  refine ⟨?_, ?_, ?_⟩
  · rw [h1.1]
    rfl
  · rw [h1.2]
    simp [serve]
  · intro script hscript
    have h2 := serve_conn_run cfg script hscript []
    simpa [serve] using h2

/-- Witness for C8: two accepted connections then a closed listener. -/
theorem serve_returns_only_on_accept_error_witness :
    ((serve ⟨0, 5⟩
        [AcceptResult.conn true, AcceptResult.conn false,
         AcceptResult.acceptErr "use of closed network connection"]).2
      = some "use of closed network connection") ∧
    ((serve ⟨0, 5⟩
        [AcceptResult.conn true, AcceptResult.conn false,
         AcceptResult.acceptErr "use of closed network connection"]).1.count AEv.spawn
      = 2) := by
  have h := serve_returns_only_on_accept_error ⟨0, 5⟩
    [AcceptResult.conn true, AcceptResult.conn false]
    "use of closed network connection" [] (by decide)
  exact ⟨h.1, h.2.1⟩

end Redeo
